import Mathlib

/-!
Shallow embedding of the `ncmdump` batch-conversion binary (`src/main.rs`):
the discovery–dispatch–convert pipeline.  Pure data is modelled directly;
filesystem and decoder behaviour is supplied by an explicit `World` of
oracles, and the stateful producer / worker / coordinator loops become
explicit recursions over the data those oracles return.
-/

set_option autoImplicit false

namespace Ncm

/-- A byte of a file or of the decoded stream.  Only equality against fixed
signature values matters in the program, so plain `Nat` is used. -/
abbrev Byte := Nat

/-- One path component (a file or directory name), as a list of characters. -/
abbrev Name := List Char

/-- A filesystem path, as its list of components (Rust `PathBuf`).  Paths the
program manipulates are built and destructed only through `parent`, `join`,
`file_stem`, `file_name` and `with_extension`, modelled below. -/
abbrev RPath := List Name

/-- Abbreviation turning a string literal into a `Name`. -/
def nm (s : String) : Name := s.data

/-- The binary's error enum (`src/main.rs` lines 18-30), plus `Io` standing
for every error produced outside this enum (std io errors, glob pattern
errors, library errors) and merely propagated by `?`. -/
inductive Error where
  | Path
  | Format
  | NoFile
  | Metadata
  | Worker
  | Io
  deriving DecidableEq, Repr

/-- `ncmdump::utils::FileType` as used by `src/main.rs`: the two known
container formats and the unrecognized case (`Other`). -/
inductive FileType where
  | Ncm
  | Qmc
  | Other
  deriving DecidableEq, Repr

/-- Index of the last `.` in a name, if any (helper for Rust `file_stem` /
`set_extension` semantics). -/
def lastDotIdx (s : Name) : Option Nat :=
  match s.reverse.findIdx? (fun c => c == '.') with
  | none => none
  | some j => some (s.length - 1 - j)

/-- Rust `Path::file_stem` restricted to a single file name: the portion
before the last `.`; the whole name if there is no `.` or if the only `.`
is leading (hidden files). -/
def stemName (s : Name) : Name :=
  match lastDotIdx s with
  | none => s
  | some 0 => s
  | some i => s.take i

/-- Rust `Path::parent` for the relative paths the program builds: `none` on
the empty path, otherwise the path without its last component. -/
def parentOf (p : RPath) : Option RPath :=
  if p.isEmpty then none else some p.dropLast

/-- Rust `PathBuf::with_extension` (with a non-empty extension): the final
component is replaced by its own stem followed by `.` and the new
extension; a path without components is unchanged. -/
def withExtension (p : RPath) (ext : Name) : RPath :=
  match p.getLast? with
  | none => p
  | some c => p.dropLast ++ [stemName c ++ '.' :: ext]

/-- The `"flac"` extension chosen by the output signature table. -/
def flacExt : Name := nm "flac"

/-- The `"mp3"` extension chosen by the output signature table. -/
def mp3Ext : Name := nm "mp3"

/-- The output signature table of `Program::dump` (`src/main.rs` lines
162-166): the slice-pattern match on the first four decoded bytes.
`[0x66, 0x4C, 0x61, 0x43]` is `ok "flac"`, `[0x49, 0x44, 0x33, _]` is
`ok "mp3"`, anything else is `Err(Error::Format)`. -/
def extSig (b0 b1 b2 b3 : Byte) : Except Error Name :=
  if b0 = 0x66 ∧ b1 = 0x4C ∧ b2 = 0x61 ∧ b3 = 0x43 then Except.ok flacExt
  else if b0 = 0x49 ∧ b1 = 0x44 ∧ b2 = 0x33 then Except.ok mp3Ext
  else Except.error Error.Format

/-- One result of `dump.read(&mut buffer)` inside `Program::get_data`:
either a successfully read chunk (empty = end of data) or a read error.
The decoder stream is the finite list of these results; an exhausted list
behaves like end of data. -/
inductive ReadResult where
  | ok (chunk : List Byte)
  | err
  deriving DecidableEq, Repr

/-- The loop of `Program::get_data` (`src/main.rs` lines 187-196):
`while let Ok(size) = dump.read(&mut buffer)` appends each non-empty chunk
to the accumulator; a zero-length read ends the loop, and a read `Err`
also merely ends the loop (the `while let` fails), without surfacing any
error.  Progress-bar increments carry no data and are not modelled. -/
def getDataLoop : List ReadResult → List Byte → List Byte
  | [], acc => acc
  | ReadResult.err :: _, acc => acc
  | ReadResult.ok [] :: _, acc => acc
  | ReadResult.ok c :: rest, acc => getDataLoop rest (acc ++ c)

/-- `Program::get_data` (`src/main.rs` lines 179-201): drain the decoder
stream into an in-memory buffer.  In the code this always returns `Ok`
(writing into a `Vec` cannot fail), so the model returns the bytes. -/
def getData (reads : List ReadResult) : List Byte :=
  getDataLoop reads []

/-- What probing one on-disk file can observe, for `FileProvider::new`:
whether `File::open` succeeds, whether the signature probe read succeeds,
the leading bytes, whether `metadata()` succeeds, and the file length. -/
structure FileStat where
  openOk : Bool
  probeOk : Bool
  leading : List Byte
  metaOk : Bool
  size : Nat
  deriving DecidableEq, Repr

/-- Modelled from the spec: the library's `FileType::parse` is code of this
repository that is not under `src/` (only `src/main.rs` calls it).  Per
§4.2 of the spec it classifies the file's leading bytes against a fixed
signature table; a match yields a known format and "an unmatched file
yields `Unrecognized`, which is not itself an error at build time".  The
fixed table itself is abstracted as two predicates on the leading bytes;
only the probe read itself can fail. -/
def FileType.parse (sigNcm sigQmc : List Byte → Bool) (probeOk : Bool)
    (leading : List Byte) : Except Unit FileType :=
  if probeOk = false then Except.error ()
  else Except.ok
    (if sigNcm leading then FileType.Ncm
     else if sigQmc leading then FileType.Qmc
     else FileType.Other)

/-- The concrete `FileProvider` descriptor (`src/main.rs` lines 61-66):
name, path, detected format and size of one discovered file. -/
structure FileProvider where
  name : Name
  path : RPath
  format : FileType
  size : Nat
  deriving DecidableEq, Repr

/-- `FileProvider::new` (`src/main.rs` lines 91-108): open the file, parse
its format from the leading bytes, read the metadata for the size, and
derive the name from the path's final component.  (`to_str` cannot fail in
the model, names being lists of characters.) -/
def FileProvider.new (sigNcm sigQmc : List Byte → Bool) (path : RPath)
    (st : FileStat) : Except Error FileProvider :=
  if st.openOk = false then Except.error Error.Io
  else
    match FileType.parse sigNcm sigQmc st.probeOk st.leading with
    | Except.error _ => Except.error Error.Io
    | Except.ok fmt =>
      if st.metaOk = false then Except.error Error.Metadata
      else
        match path.getLast? with
        | none => Except.error Error.Path
        | some n => Except.ok ⟨n, path, fmt, st.size⟩

/-- Result of `Program::dump` on one work item: a Rust panic (the only one
reachable is the out-of-bounds slice `data[..4]`), an error return, or
success, recording the output path opened and the decoded bytes written
to it. -/
inductive DumpRes where
  | panic
  | err (e : Error)
  | ok (outPath : RPath) (content : List Byte)
  deriving DecidableEq, Repr

/-- Content of the output file after `File::options().create(true)
.write(true).open(path)` followed by `write_all(&data)` (`src/main.rs`
lines 174-175).  The open options do not truncate, so writing from offset
zero over an existing longer file leaves its tail in place. -/
def writeOut (old : Option (List Byte)) (data : List Byte) : List Byte :=
  match old with
  | none => data
  | some o => data ++ o.drop data.length

/-- The environment of oracles the pipeline runs against: glob expansion,
regular-file test, probe results per path, the library signature table,
whether `File::open` succeeds for the conversion read, the decoder's
stream of reads per path (`none` when `from_reader` itself fails), the
pre-existing output file contents, and whether the output file can be
opened/created. -/
structure World where
  glob : Nat → Except Unit (List (Except Unit RPath))
  isFile : RPath → Bool
  stat : RPath → FileStat
  sigNcm : List Byte → Bool
  sigQmc : List Byte → Bool
  sourceOpen : RPath → Bool
  decoder : RPath → Option (List ReadResult)
  existing : RPath → Option (List Byte)
  targetOpen : RPath → Bool

/-- The output directory used by `Program::dump`: the configuration's
output override when present, else the input file's parent. -/
def dirOf (output : Option RPath) (p : RPath) : RPath :=
  match output with
  | some o => o
  | none => p.dropLast

/-- The tail of `Program::dump` after the extension is chosen
(`src/main.rs` lines 167-176): resolve the parent directory (output
override or the input's parent), take the input's file stem, build
`parent.join(file_name).with_extension(ext)`, open/create the target and
write the whole buffer. -/
def dumpWritePath (w : World) (output : Option RPath) (fp : FileProvider)
    (ext : Name) (data : List Byte) : DumpRes :=
  match (match output with | none => parentOf fp.path | some p => some p) with
  | none => DumpRes.err Error.Path
  | some parent =>
    match fp.path.getLast? with
    | none => DumpRes.err Error.Path
    | some lastName =>
      let outPath := withExtension (parent ++ [stemName lastName]) ext
      if w.targetOpen outPath = false then DumpRes.err Error.Io
      else DumpRes.ok outPath data

/-- The middle of `Program::dump` (`src/main.rs` lines 162-166) applied to
the fully decoded buffer: slice the first four bytes — a Rust panic when
the buffer holds fewer than four — and look them up in the signature
table. -/
def dumpData (w : World) (output : Option RPath) (fp : FileProvider)
    (data : List Byte) : DumpRes :=
  match data with
  | b0 :: b1 :: b2 :: b3 :: _ =>
    match extSig b0 b1 b2 b3 with
    | Except.error e => DumpRes.err e
    | Except.ok ext => dumpWritePath w output fp ext data
  | _ => DumpRes.panic

/-- The decoder arm shared by the `Ncm` and `Qmc` cases of `Program::dump`:
construct the decoder over the opened source (`Ncmdump::from_reader` /
`QmcDump::from_reader`, whose failure is an error return) and drain it
with `get_data`. -/
def decodeStep (w : World) (output : Option RPath) (fp : FileProvider) : DumpRes :=
  match w.decoder fp.path with
  | none => DumpRes.err Error.Io
  | some reads => dumpData w output fp (getData reads)

/-- `Program::dump` (`src/main.rs` lines 152-177): open the source file,
dispatch on the descriptor's format — `Other` is rejected with
`Error::Format` before any decoder is built — decode, sniff the output
signature, and write the output file. -/
def dump (w : World) (output : Option RPath) (fp : FileProvider) : DumpRes :=
  if w.sourceOpen fp.path = false then DumpRes.err Error.Io
  else
    match fp.format with
    | FileType.Ncm => decodeStep w output fp
    | FileType.Qmc => decodeStep w output fp
    | FileType.Other => DumpRes.err Error.Format

/-- The run configuration (`Command`, `src/main.rs` lines 32-52).  Glob
pattern strings are opaque to the program (matching is an external
primitive), so matchers are modelled as atoms. -/
structure Command where
  matchers : List Nat
  output : Option RPath
  verbose : Bool
  worker : Nat
  deriving DecidableEq, Repr

/-- State carried by the discovery producer: descriptors enqueued so far,
the progress bar's total length, and the task's outcome. -/
structure ProdResult where
  sent : List FileProvider
  total : Nat
  outcome : Except Error Unit
  deriving Repr

/-- The inner loop of the producer task (`src/main.rs` lines 222-231) over
the entries of one expanded pattern: a failed entry aborts with
`Error::Path`; a non-file is skipped silently; otherwise the descriptor is
built (any build failure mapped to `Error::Path`), the total length is
extended by its size, and it is sent on the channel.  Channel sends are
modelled as always succeeding (the queue is unbounded). -/
def prodEntries (w : World) : List (Except Unit RPath) → Nat →
    List FileProvider → ProdResult
  | [], total, sent => ⟨sent, total, Except.ok ()⟩
  | Except.error _ :: _, total, sent => ⟨sent, total, Except.error Error.Path⟩
  | Except.ok p :: rest, total, sent =>
    if w.isFile p = false then prodEntries w rest total sent
    else
      match FileProvider.new w.sigNcm w.sigQmc p (w.stat p) with
      | Except.error _ => ⟨sent, total, Except.error Error.Path⟩
      | Except.ok fp => prodEntries w rest (total + fp.size) (sent ++ [fp])

/-- The outer loop of the producer task (`src/main.rs` lines 221-233) over
the configured matchers: expand each pattern (a pattern error aborts) and
process its entries; the first error ends the task. -/
def prodMatchers (w : World) : List Nat → Nat → List FileProvider → ProdResult
  | [], total, sent => ⟨sent, total, Except.ok ()⟩
  | m :: ms, total, sent =>
    match w.glob m with
    | Except.error _ => ⟨sent, total, Except.error Error.Io⟩
    | Except.ok entries =>
      match prodEntries w entries total sent with
      | ⟨sent₁, total₁, Except.ok _⟩ => prodMatchers w ms total₁ sent₁
      | r => r

/-- The whole discovery producer task, starting from the progress bar's
initial length `0` (`ProgressBar::new(0)`). -/
def producerRun (w : World) (ms : List Nat) : ProdResult :=
  prodMatchers w ms 0 []

/-- Outcome of one spawned task as observed by `join()`: normal return of
`Ok`, normal return of an error, or a panic inside the task. -/
inductive TaskOut where
  | ok
  | err (e : Error)
  | panic
  deriving DecidableEq, Repr

/-- One conversion worker's loop (`src/main.rs` lines 241-246) applied to
the descriptors this worker receives from the channel, in order: the first
failing `dump` ends the task with that error (`?`), and a panicking `dump`
panics the task. -/
def workerRun (w : World) (output : Option RPath) : List FileProvider → TaskOut
  | [] => TaskOut.ok
  | fp :: rest =>
    match dump w output fp with
    | DumpRes.panic => TaskOut.panic
    | DumpRes.err e => TaskOut.err e
    | DumpRes.ok _ _ => workerRun w output rest

/-- The output files one worker creates, in processing order: every
successful `dump` before the worker's first failure writes its buffer. -/
def workerWrites (w : World) (output : Option RPath) :
    List FileProvider → List (RPath × List Byte)
  | [] => []
  | fp :: rest =>
    match dump w output fp with
    | DumpRes.ok p data => (p, data) :: workerWrites w output rest
    | _ => []

/-- The coordinator's join loop (`src/main.rs` lines 249-251) over the task
outcomes in spawn order: `task.join().unwrap()?`.  A panicked task makes
`unwrap` panic the coordinator (`none`); the first error outcome is
returned; only when every task succeeded does the loop fall through.  The
`Bool` records whether `self.finish()` (line 252) is reached. -/
def coordJoin : List TaskOut → Option (Except Error Unit) × Bool
  | [] => (some (Except.ok ()), true)
  | TaskOut.ok :: rest => coordJoin rest
  | TaskOut.err e :: _ => (some (Except.error e), false)
  | TaskOut.panic :: _ => (none, false)

/-- The first error value among task outcomes in join order, skipping
successful tasks — the spec's description of what the coordinator
returns.  Written from the spec's words for comparison with `coordJoin`. -/
def firstJoinError : List TaskOut → Option Error
  | [] => none
  | TaskOut.err e :: _ => some e
  | _ :: rest => firstJoinError rest

/-- The outcomes of the spawned tasks in spawn order, as the coordinator's
join loop sees them: the discovery producer first (spawned at
`src/main.rs` line 220 and pushed first), then each worker in spawn
order, receiving the descriptors the channel delivers to it (`sched i`). -/
def taskOuts (w : World) (cmd : Command) (sched : Nat → List FileProvider) :
    List TaskOut :=
  (match (producerRun w cmd.matchers).outcome with
   | Except.ok _ => TaskOut.ok
   | Except.error e => TaskOut.err e)
  :: (List.range cmd.worker).map fun i => workerRun w cmd.output (sched i)

/-- Everything observable about one run of `Program::start`: the value
returned (`none` when the coordinator panics in `unwrap`), how many tasks
were spawned, the output files written, the final total length of the
progress bar, and whether `finish()` was reached. -/
structure StartRes where
  result : Option (Except Error Unit)
  spawned : Nat
  writes : List (RPath × List Byte)
  total : Nat
  finished : Bool
  deriving Repr

/-- `Program::start` (`src/main.rs` lines 203-254): validate the worker
count (must be `1..=8`) and then the matcher list (must be non-empty),
each failure returning before anything is spawned or touched; then run
the producer, hand each worker the descriptors the channel delivers to it
(`sched i`, a parameter standing for the nondeterministic distribution of
the queue among workers), and join producer and workers in spawn order. -/
def start (w : World) (cmd : Command) (sched : Nat → List FileProvider) : StartRes :=
  if 1 ≤ cmd.worker ∧ cmd.worker ≤ 8 then
    if cmd.matchers = [] then ⟨some (Except.error Error.NoFile), 0, [], 0, false⟩
    else
      ⟨(coordJoin (taskOuts w cmd sched)).1, 1 + cmd.worker,
        ((List.range cmd.worker).map fun i => workerWrites w cmd.output (sched i)).flatten,
        (producerRun w cmd.matchers).total,
        (coordJoin (taskOuts w cmd sched)).2⟩
  else ⟨some (Except.error Error.Worker), 0, [], 0, false⟩

/-! ### Concrete instances used by witnesses and counterexamples -/

/-- World for the C1 counterexample: the decoder yields one 4-byte chunk
(the flac magic) and then fails mid-stream, before ever signaling end of
data. -/
def w1 : World :=
  ⟨fun _ => Except.ok [], fun _ => false, fun _ => ⟨true, true, [], true, 0⟩,
   fun _ => false, fun _ => false, fun _ => true,
   fun _ => some [ReadResult.ok [0x66, 0x4C, 0x61, 0x43], ReadResult.err],
   fun _ => none, fun _ => true⟩

/-- Input descriptor for the C1 counterexample. -/
def fp1 : FileProvider := ⟨nm "a.ncm", [nm "a.ncm"], FileType.Ncm, 4⟩

/-- World for the C2 witness (its contents are irrelevant to the
signature-table step). -/
def w2 : World :=
  ⟨fun _ => Except.ok [], fun _ => false, fun _ => ⟨true, true, [], true, 0⟩,
   fun _ => false, fun _ => false, fun _ => true, fun _ => some [],
   fun _ => none, fun _ => true⟩

/-- Input descriptor for the C2 witness. -/
def fp2 : FileProvider := ⟨nm "a.ncm", [nm "a.ncm"], FileType.Ncm, 4⟩

/-- World for the C4 counterexample: a six-byte file already exists at
every path, and the decoder produces a four-byte buffer. -/
def w4 : World :=
  ⟨fun _ => Except.ok [], fun _ => false, fun _ => ⟨true, true, [], true, 0⟩,
   fun _ => false, fun _ => false, fun _ => true,
   fun _ => some [ReadResult.ok [0x66, 0x4C, 0x61, 0x43], ReadResult.ok []],
   fun _ => some [9, 9, 9, 9, 9, 9], fun _ => true⟩

/-- Input descriptor for the C4 counterexample and witness. -/
def fp4 : FileProvider := ⟨nm "a.ncm", [nm "a.ncm"], FileType.Ncm, 4⟩

/-- World for the C6 counterexample: the decoder produces a flac-signature
buffer for the input `a.b.ncm`, whose file stem `a.b` contains a dot. -/
def w6 : World :=
  ⟨fun _ => Except.ok [], fun _ => false, fun _ => ⟨true, true, [], true, 0⟩,
   fun _ => false, fun _ => false, fun _ => true,
   fun _ => some [ReadResult.ok [0x66, 0x4C, 0x61, 0x43], ReadResult.ok []],
   fun _ => none, fun _ => true⟩

/-- Input descriptor for the C6 counterexample: file name `a.b.ncm`. -/
def fp6 : FileProvider := ⟨nm "a.b.ncm", [nm "a.b.ncm"], FileType.Ncm, 4⟩

/-- World for the C7 witness. -/
def w7 : World :=
  ⟨fun _ => Except.ok [], fun _ => false, fun _ => ⟨true, true, [1, 2, 3, 4], true, 10⟩,
   fun _ => false, fun _ => false, fun _ => true, fun _ => some [],
   fun _ => none, fun _ => true⟩

/-- Unrecognized-format descriptor for the C7 witness. -/
def fp7 : FileProvider := ⟨nm "x.bin", [nm "x.bin"], FileType.Other, 10⟩

/-- World for the C10 witness: the decoder immediately signals end of data,
so the decoded buffer is empty. -/
def w10 : World :=
  ⟨fun _ => Except.ok [], fun _ => false, fun _ => ⟨true, true, [], true, 0⟩,
   fun _ => false, fun _ => false, fun _ => true, fun _ => some [],
   fun _ => none, fun _ => true⟩

/-- Input descriptor for the C10 witness. -/
def fp10 : FileProvider := ⟨nm "a.ncm", [nm "a.ncm"], FileType.Ncm, 0⟩

/-- World for the C5 witness (never consulted by the validation path). -/
def w5 : World :=
  ⟨fun _ => Except.ok [], fun _ => false, fun _ => ⟨true, true, [], true, 0⟩,
   fun _ => false, fun _ => false, fun _ => true, fun _ => some [],
   fun _ => none, fun _ => true⟩

/-- Scheduler for the C5 witness. -/
def sched5 : Nat → List FileProvider := fun _ => []

/-- World for the C3 counterexample: every glob pattern expands to the
empty list of paths — a pattern set matching zero files. -/
def w3 : World :=
  ⟨fun _ => Except.ok [], fun _ => false, fun _ => ⟨true, true, [], true, 0⟩,
   fun _ => false, fun _ => false, fun _ => true, fun _ => some [],
   fun _ => none, fun _ => true⟩

/-- Scheduler for the C3 counterexample and witness: the queue stays empty,
so every worker receives nothing. -/
def sched3 : Nat → List FileProvider := fun _ => []

/-- World for the C9 witness. -/
def w9 : World :=
  ⟨fun _ => Except.ok [], fun _ => false, fun _ => ⟨true, true, [], true, 0⟩,
   fun _ => false, fun _ => false, fun _ => true, fun _ => some [],
   fun _ => none, fun _ => true⟩

/-- Scheduler for the C9 witness. -/
def sched9 : Nat → List FileProvider := fun _ => []

/-! ### Helper lemmas -/

instance {ε α : Type} [DecidableEq ε] [DecidableEq α] : DecidableEq (Except ε α)
  | Except.ok x, Except.ok y =>
    if h : x = y then isTrue (by rw [h])
    else isFalse (fun hh => h (by cases hh; rfl))
  | Except.ok _, Except.error _ => isFalse (fun hh => Except.noConfusion hh)
  | Except.error _, Except.ok _ => isFalse (fun hh => Except.noConfusion hh)
  | Except.error x, Except.error y =>
    if h : x = y then isTrue (by rw [h])
    else isFalse (fun hh => h (by cases hh; rfl))

lemma getDataLoop_append_err (rest : List ReadResult) :
    ∀ (pre : List ReadResult) (acc : List Byte),
      getDataLoop (pre ++ ReadResult.err :: rest) acc = getDataLoop pre acc := by
  intro pre
  induction pre with
  | nil => intro acc; rfl
  | cons r pre ih =>
    intro acc
    cases r with
    | err => rfl
    | ok c =>
      cases c with
      | nil => rfl
      | cons a c => simpa [getDataLoop] using ih (acc ++ a :: c)

lemma extSig_ok_inv {b0 b1 b2 b3 : Byte} {e : Name}
    (h : extSig b0 b1 b2 b3 = Except.ok e) : e = flacExt ∨ e = mp3Ext := by
  unfold extSig at h
  split_ifs at h
  · exact Or.inl (by injection h with h; exact h.symm)
  · exact Or.inr (by injection h with h; exact h.symm)

/-! ### Claim C1 -/

/-- Claim C1 (amended): a decoder read error before end of data is not
surfaced by the worker.  The `while let Ok(size)` loop of
`Program::get_data` merely stops reading at the first `Err`, so the
decoded buffer equals what had been decoded so far and conversion
continues with it — nothing downstream can distinguish a mid-stream
decoder failure from a normal end of data. -/
theorem c1_read_error_is_end_of_data (pre rest : List ReadResult) :
    getData (pre ++ ReadResult.err :: rest) = getData pre :=
  getDataLoop_append_err rest pre []

/-- Claim C1 counterexample: the decoder for this input errors before
signaling end of data (its read stream is a chunk followed by `err`), yet
`Program::dump` does not fail — it returns success and writes the output
file, contradicting the claim that every such conversion fails with no
output written. -/
theorem c1_counterexample :
    w1.decoder fp1.path
        = some [ReadResult.ok [0x66, 0x4C, 0x61, 0x43], ReadResult.err]
    ∧ dump w1 none fp1 = DumpRes.ok [nm "a.flac"] [0x66, 0x4C, 0x61, 0x43] := by
  exact ⟨rfl, by decide⟩

/-! ### Claim C2 -/

/-- Claim C2: output extension selection is a pure function of the first
four decoded bytes: exactly `[0x66, 0x4C, 0x61, 0x43]` yields `"flac"`,
`[0x49, 0x44, 0x33, x]` for any byte `x` yields `"mp3"`, and every other
4-byte prefix yields `Error::Format`, upon which `Program::dump` returns
that error and never reaches the file-writing step (only `DumpRes.ok`
records a write). -/
theorem c2_signature_table :
    (extSig 0x66 0x4C 0x61 0x43 = Except.ok flacExt)
    ∧ (∀ x : Byte, extSig 0x49 0x44 0x33 x = Except.ok mp3Ext)
    ∧ (∀ b0 b1 b2 b3 : Byte,
        ¬(b0 = 0x66 ∧ b1 = 0x4C ∧ b2 = 0x61 ∧ b3 = 0x43) →
        ¬(b0 = 0x49 ∧ b1 = 0x44 ∧ b2 = 0x33) →
        extSig b0 b1 b2 b3 = Except.error Error.Format)
    ∧ (∀ (w : World) (output : Option RPath) (fp : FileProvider)
        (b0 b1 b2 b3 : Byte) (rest : List Byte),
        extSig b0 b1 b2 b3 = Except.error Error.Format →
        dumpData w output fp (b0 :: b1 :: b2 :: b3 :: rest) = DumpRes.err Error.Format) := by
  refine ⟨by decide, ?_, ?_, ?_⟩
  · intro x
    unfold extSig
    rw [if_neg (fun h => absurd h.1 (by decide)), if_pos ⟨rfl, rfl, rfl⟩]
  · intro b0 b1 b2 b3 h1 h2
    unfold extSig
    rw [if_neg h1, if_neg h2]
  · intro w output fp b0 b1 b2 b3 rest h
    simp only [dumpData]
    rw [h]

/-- Claim C2 witness: the unmatched prefix `[0, 0, 0, 0]` is rejected by
the signature table, and a decoded buffer with that prefix makes the
conversion fail with the format error. -/
theorem c2_witness :
    extSig 0 0 0 0 = Except.error Error.Format
    ∧ dumpData w2 none fp2 [0, 0, 0, 0] = DumpRes.err Error.Format :=
  ⟨c2_signature_table.2.2.1 0 0 0 0 (by decide) (by decide),
   c2_signature_table.2.2.2 w2 none fp2 0 0 0 0 []
     (c2_signature_table.2.2.1 0 0 0 0 (by decide) (by decide))⟩

/-! ### Claim C4 -/

/-- Claim C4 counterexample: the conversion succeeds and writes its
four decoded bytes over a pre-existing six-byte output file, but the open
options (`create(true).write(true)`, without `truncate`) leave the old
file's tail in place: the resulting content is the decoded buffer followed
by two stale bytes, not "exactly the full decoded buffer". -/
theorem c4_counterexample :
    dump w4 none fp4 = DumpRes.ok [nm "a.flac"] [0x66, 0x4C, 0x61, 0x43]
    ∧ w4.existing [nm "a.flac"] = some [9, 9, 9, 9, 9, 9]
    ∧ writeOut (w4.existing [nm "a.flac"]) [0x66, 0x4C, 0x61, 0x43]
        = [0x66, 0x4C, 0x61, 0x43, 9, 9]
    ∧ [0x66, 0x4C, 0x61, 0x43, 9, 9] ≠ ([0x66, 0x4C, 0x61, 0x43] : List Byte) :=
  ⟨by decide, rfl, by decide, by decide⟩

/-- Claim C4 (amended): when conversion of an item succeeds, the output
file is created if absent, and its content afterwards starts with the
full decoded buffer; but the file is opened without truncation, so the
content equals exactly the decoded buffer only when no longer pre-existing
file occupied that path — a longer one keeps its bytes beyond the decoded
length. -/
theorem c4_write_no_truncate (w : World) (output : Option RPath)
    (fp : FileProvider) (p : RPath) (d : List Byte)
    (_h : dump w output fp = DumpRes.ok p d) :
    (writeOut (w.existing p) d).take d.length = d
    ∧ (w.existing p = none → writeOut (w.existing p) d = d)
    ∧ (∀ o, w.existing p = some o →
        (writeOut (w.existing p) d = d ↔ o.length ≤ d.length)) := by
  refine ⟨?_, ?_, ?_⟩
  · cases ho : w.existing p with
    | none => simp [writeOut]
    | some o => simp [writeOut, List.take_left d (o.drop d.length)]
  · intro ho; rw [ho]; rfl
  · intro o ho
    rw [ho]
    show d ++ o.drop d.length = d ↔ o.length ≤ d.length
    constructor
    · intro he
      have hlen := congrArg List.length he
      simp only [List.length_append, List.length_drop] at hlen
      omega
    · intro hle
      rw [List.drop_eq_nil_of_le hle, List.append_nil]

/-- Claim C4 witness: at the concrete successful conversion of the
counterexample world, the written file's first four bytes are the decoded
buffer, and exact equality fails because the stale file is longer. -/
theorem c4_witness :
    (writeOut (w4.existing [nm "a.flac"]) [0x66, 0x4C, 0x61, 0x43]).take
        ([0x66, 0x4C, 0x61, 0x43] : List Byte).length = [0x66, 0x4C, 0x61, 0x43]
    ∧ (writeOut (w4.existing [nm "a.flac"]) [0x66, 0x4C, 0x61, 0x43]
        = [0x66, 0x4C, 0x61, 0x43]
      ↔ ([9, 9, 9, 9, 9, 9] : List Byte).length
          ≤ ([0x66, 0x4C, 0x61, 0x43] : List Byte).length) :=
  ⟨(c4_write_no_truncate w4 none fp4 [nm "a.flac"] [0x66, 0x4C, 0x61, 0x43]
      (by decide)).1,
   (c4_write_no_truncate w4 none fp4 [nm "a.flac"] [0x66, 0x4C, 0x61, 0x43]
      (by decide)).2.2 [9, 9, 9, 9, 9, 9] rfl⟩

/-! ### Claim C6 -/

lemma withExtension_concat (l : RPath) (c e : Name) :
    withExtension (l ++ [c]) e = l ++ [stemName c ++ '.' :: e] := by
  unfold withExtension
  rw [List.getLast?_concat, List.dropLast_concat]

lemma dumpWritePath_ok_inv {w : World} {output : Option RPath}
    {fp : FileProvider} {ext : Name} {data : List Byte} {p : RPath}
    {d : List Byte} (h : dumpWritePath w output fp ext data = DumpRes.ok p d) :
    (∃ name, fp.path.getLast? = some name
      ∧ p = dirOf output fp.path ++ [stemName (stemName name) ++ '.' :: ext])
    ∧ d = data := by
  unfold dumpWritePath at h
  split at h
  · exact DumpRes.noConfusion h
  · rename_i parent hparent
    split at h
    · exact DumpRes.noConfusion h
    · rename_i lastName hlast
      dsimp only at h
      split at h
      · exact DumpRes.noConfusion h
      · injection h with h1 h2
        refine ⟨⟨lastName, hlast, ?_⟩, h2.symm⟩
        rw [← h1, withExtension_concat]
        have hdir : parent = dirOf output fp.path := by
          cases output with
          | none =>
            simp only [parentOf] at hparent
            split at hparent
            · exact Option.noConfusion hparent
            · injection hparent with hp2
              rw [← hp2]; rfl
          | some q =>
            injection hparent with hp2
            rw [← hp2]; rfl
        rw [hdir]

lemma dumpData_ok_inv {w : World} {output : Option RPath} {fp : FileProvider}
    {data : List Byte} {p : RPath} {d : List Byte}
    (h : dumpData w output fp data = DumpRes.ok p d) :
    ∃ ext, (ext = flacExt ∨ ext = mp3Ext)
      ∧ dumpWritePath w output fp ext data = DumpRes.ok p d := by
  unfold dumpData at h
  split at h
  · split at h
    · exact DumpRes.noConfusion h
    · rename_i ext heq
      exact ⟨ext, extSig_ok_inv heq, h⟩
  · exact DumpRes.noConfusion h

lemma decodeStep_ok_inv {w : World} {output : Option RPath}
    {fp : FileProvider} {p : RPath} {d : List Byte}
    (h : decodeStep w output fp = DumpRes.ok p d) :
    ∃ reads, w.decoder fp.path = some reads
      ∧ dumpData w output fp (getData reads) = DumpRes.ok p d := by
  unfold decodeStep at h
  split at h
  · exact DumpRes.noConfusion h
  · rename_i reads heq
    exact ⟨reads, heq, h⟩

lemma dump_ok_inv {w : World} {output : Option RPath} {fp : FileProvider}
    {p : RPath} {d : List Byte} (h : dump w output fp = DumpRes.ok p d) :
    ∃ reads, w.decoder fp.path = some reads
      ∧ dumpData w output fp (getData reads) = DumpRes.ok p d := by
  unfold dump at h
  split at h
  · exact DumpRes.noConfusion h
  · split at h
    · exact decodeStep_ok_inv h
    · exact decodeStep_ok_inv h
    · exact DumpRes.noConfusion h

/-- Claim C6 (amended): for every successful conversion, the output
directory is the configuration's override when present, else the input's
own parent, and the output file name is the input's file stem passed
through `with_extension` — that is, the stem of the stem followed by the
chosen extension.  When the input's stem itself contains a dot,
`with_extension` cuts at that dot, so the output stem is strictly shorter
than the input stem (the original claim's "same file stem" fails there,
see the counterexample). -/
theorem c6_output_path (w : World) (output : Option RPath)
    (fp : FileProvider) (p : RPath) (d : List Byte) (name : Name)
    (h : dump w output fp = DumpRes.ok p d)
    (hname : fp.path.getLast? = some name) :
    p = dirOf output fp.path ++ [stemName (stemName name) ++ '.' :: flacExt]
    ∨ p = dirOf output fp.path ++ [stemName (stemName name) ++ '.' :: mp3Ext] := by
  obtain ⟨reads, -, h2⟩ := dump_ok_inv h
  obtain ⟨ext, hext, h3⟩ := dumpData_ok_inv h2
  obtain ⟨⟨name2, hn2, hp⟩, -⟩ := dumpWritePath_ok_inv h3
  rw [hname] at hn2
  injection hn2 with hn2
  subst hn2
  cases hext with
  | inl he => subst he; exact Or.inl hp
  | inr he => subst he; exact Or.inr hp

/-- Claim C6 counterexample: converting `a.b.ncm` succeeds and writes
`a.flac` — but the input path's file stem is `a.b` while the output
path's file stem is `a`, so the output does not keep the input's file
stem, contradicting the claim.  (`join(file_stem).with_extension(ext)`
replaces everything after the stem's own last dot.) -/
theorem c6_counterexample :
    dump w6 none fp6 = DumpRes.ok [nm "a.flac"] [0x66, 0x4C, 0x61, 0x43]
    ∧ stemName (nm "a.b.ncm") = nm "a.b"
    ∧ stemName (nm "a.flac") = nm "a"
    ∧ nm "a" ≠ nm "a.b" :=
  ⟨by decide, by decide, by decide, by decide⟩

/-- Claim C6 witness: the amended path formula instantiated at the
concrete successful conversion of `a.b.ncm`. -/
theorem c6_witness :
    [nm "a.flac"]
        = dirOf none [nm "a.b.ncm"] ++ [stemName (stemName (nm "a.b.ncm")) ++ '.' :: flacExt]
    ∨ [nm "a.flac"]
        = dirOf none [nm "a.b.ncm"] ++ [stemName (stemName (nm "a.b.ncm")) ++ '.' :: mp3Ext] :=
  c6_output_path w6 none fp6 [nm "a.flac"] [0x66, 0x4C, 0x61, 0x43]
    (nm "a.b.ncm") (by decide) rfl

/-! ### Claim C7 -/

/-- Claim C7: a probed file matching no known signature is classified
`Other` (the spec's `Unrecognized`) and descriptor construction still
succeeds; converting such a descriptor fails immediately with
`Error::Format` — for every decoder oracle, i.e. without the decoder ever
being consulted — and nothing is written (`DumpRes.err`, not
`DumpRes.ok`). -/
theorem c7_unrecognized_build_ok_convert_fails
    (sigN sigQ : List Byte → Bool) (path : RPath) (st : FileStat) (n : Name)
    (ho : st.openOk = true) (hp : st.probeOk = true) (hm : st.metaOk = true)
    (hn1 : sigN st.leading = false) (hn2 : sigQ st.leading = false)
    (hname : path.getLast? = some n) :
    FileProvider.new sigN sigQ path st
        = Except.ok ⟨n, path, FileType.Other, st.size⟩
    ∧ ∀ (w : World) (output : Option RPath) (fp : FileProvider),
        fp.format = FileType.Other → w.sourceOpen fp.path = true →
        dump w output fp = DumpRes.err Error.Format := by
  constructor
  · unfold FileProvider.new FileType.parse
    rw [ho, hp, hm, hn1, hn2, hname]
    rfl
  · intro w output fp hfmt hopen
    unfold dump
    rw [hopen, hfmt]
    rfl

/-- Claim C7 witness: with an always-unmatched signature table, building
the descriptor for `x.bin` succeeds with format `Other`, and converting it
fails with the format error. -/
theorem c7_witness :
    FileProvider.new (fun _ => false) (fun _ => false) [nm "x.bin"]
        ⟨true, true, [1, 2, 3, 4], true, 10⟩
      = Except.ok ⟨nm "x.bin", [nm "x.bin"], FileType.Other, 10⟩
    ∧ dump w7 none fp7 = DumpRes.err Error.Format :=
  ⟨(c7_unrecognized_build_ok_convert_fails (fun _ => false) (fun _ => false)
      [nm "x.bin"] ⟨true, true, [1, 2, 3, 4], true, 10⟩ (nm "x.bin")
      rfl rfl rfl rfl rfl rfl).1,
   (c7_unrecognized_build_ok_convert_fails (fun _ => false) (fun _ => false)
      [nm "x.bin"] ⟨true, true, [1, 2, 3, 4], true, 10⟩ (nm "x.bin")
      rfl rfl rfl rfl rfl rfl).2 w7 none fp7 rfl rfl⟩

/-! ### Claim C10 -/

/-- Claim C10: when the fully decoded buffer holds fewer than four bytes,
the signature inspection `data[..4]` of `Program::dump` indexes out of
bounds and the worker panics — it does not return a format (or any other)
error. -/
theorem c10_short_buffer_panics (w : World) (output : Option RPath)
    (fp : FileProvider) (reads : List ReadResult)
    (hopen : w.sourceOpen fp.path = true) (hfmt : fp.format ≠ FileType.Other)
    (hdec : w.decoder fp.path = some reads)
    (hlen : (getData reads).length < 4) :
    dump w output fp = DumpRes.panic := by
  unfold dump
  rw [hopen]
  simp only [Bool.true_eq_false, if_false]
  have hstep : decodeStep w output fp = DumpRes.panic := by
    unfold decodeStep
    rw [hdec]
    show dumpData w output fp (getData reads) = DumpRes.panic
    revert hlen
    generalize getData reads = data
    intro hlen
    match data, hlen with
    | [], _ => rfl
    | [b0], _ => rfl
    | [b0, b1], _ => rfl
    | [b0, b1, b2], _ => rfl
    | b0 :: b1 :: b2 :: b3 :: t, h =>
      exact absurd h (by simp only [List.length_cons]; omega)
  cases hf : fp.format with
  | Ncm => exact hstep
  | Qmc => exact hstep
  | Other => exact absurd hf hfmt

/-- Claim C10 witness: converting a file whose decoder produces zero bytes
panics. -/
theorem c10_witness : dump w10 none fp10 = DumpRes.panic :=
  c10_short_buffer_panics w10 none fp10 [] rfl (by decide) rfl (by decide)

/-! ### Pipeline helper lemmas -/

lemma coordJoin_all_ok : ∀ (l : List TaskOut), (∀ o ∈ l, o = TaskOut.ok) →
    coordJoin l = (some (Except.ok ()), true) := by
  intro l
  induction l with
  | nil => intro _; rfl
  | cons o rest ih =>
    intro h
    have ho := h o (List.mem_cons_self o rest)
    subst ho
    exact ih fun x hx => h x (List.mem_cons_of_mem _ hx)

lemma flatten_map_nil {α β : Type _} (l : List α) (f : α → List β)
    (h : ∀ a ∈ l, f a = []) : (l.map f).flatten = [] := by
  induction l with
  | nil => rfl
  | cons a l ih =>
    simp only [List.map_cons, List.flatten_cons,
      h a (List.mem_cons_self a l), List.nil_append]
    exact ih fun x hx => h x (List.mem_cons_of_mem _ hx)

lemma prodEntries_no_files (w : World) :
    ∀ (es : List (Except Unit RPath)) (total : Nat) (sent : List FileProvider),
      (∀ e ∈ es, ∃ q, e = Except.ok q ∧ w.isFile q = false) →
      prodEntries w es total sent = ⟨sent, total, Except.ok ()⟩ := by
  intro es
  induction es with
  | nil => intro total sent _; rfl
  | cons e es ih =>
    intro total sent h
    obtain ⟨q, hq, hfile⟩ := h e (List.mem_cons_self e es)
    subst hq
    simp only [prodEntries, if_pos hfile]
    exact ih total sent fun x hx => h x (List.mem_cons_of_mem _ hx)

lemma prodMatchers_no_files (w : World) :
    ∀ (ms : List Nat) (total : Nat) (sent : List FileProvider),
      (∀ m ∈ ms, ∃ es, w.glob m = Except.ok es ∧
        ∀ e ∈ es, ∃ q, e = Except.ok q ∧ w.isFile q = false) →
      prodMatchers w ms total sent = ⟨sent, total, Except.ok ()⟩ := by
  intro ms
  induction ms with
  | nil => intro _ _ _; rfl
  | cons m ms ih =>
    intro total sent h
    obtain ⟨es, hes, hall⟩ := h m (List.mem_cons_self m ms)
    simp only [prodMatchers]
    rw [hes]
    dsimp only
    rw [prodEntries_no_files w es total sent hall]
    exact ih total sent fun x hx => h x (List.mem_cons_of_mem _ hx)

lemma prodEntries_total_inv (w : World) :
    ∀ (es : List (Except Unit RPath)) (total : Nat) (sent : List FileProvider),
      total = (sent.map FileProvider.size).sum →
      (prodEntries w es total sent).total
        = ((prodEntries w es total sent).sent.map FileProvider.size).sum := by
  intro es
  induction es with
  | nil => intro total sent h; exact h
  | cons e es ih =>
    intro total sent h
    cases e with
    | error u => exact h
    | ok q =>
      by_cases hf : w.isFile q = false
      · simp only [prodEntries, if_pos hf]
        exact ih total sent h
      · simp only [prodEntries, if_neg hf]
        cases hnew : FileProvider.new w.sigNcm w.sigQmc q (w.stat q) with
        | error e2 => exact h
        | ok fp =>
          exact ih (total + fp.size) (sent ++ [fp]) (by
            rw [List.map_append, List.sum_append]
            simp [h])

lemma prodMatchers_total_inv (w : World) :
    ∀ (ms : List Nat) (total : Nat) (sent : List FileProvider),
      total = (sent.map FileProvider.size).sum →
      (prodMatchers w ms total sent).total
        = ((prodMatchers w ms total sent).sent.map FileProvider.size).sum := by
  intro ms
  induction ms with
  | nil => intro _ _ h; exact h
  | cons m ms ih =>
    intro total sent h
    simp only [prodMatchers]
    cases hg : w.glob m with
    | error u => exact h
    | ok es =>
      dsimp only
      have hpe := prodEntries_total_inv w es total sent h
      cases hres : prodEntries w es total sent with
      | mk sent₁ total₁ out =>
        rw [hres] at hpe
        cases out with
        | ok u => exact ih total₁ sent₁ hpe
        | error e2 => exact hpe

/-! ### Claim C5 -/

/-- Claim C5: both validation checks of `Program::start` fail the run
before anything else happens — a worker count outside `[1, 8]` yields
`Error::Worker`, and (with a valid worker count) an empty pattern list
yields `Error::NoFile`.  In both cases the returned record is a fixed
literal, independent of the world and of the scheduler: zero tasks
spawned, no writes, total still `0`, `finish()` not reached — and since
the branch never consults the world, no file was opened either. -/
theorem c5_validation_before_any_work (w : World) (cmd : Command)
    (sched : Nat → List FileProvider) :
    (¬(1 ≤ cmd.worker ∧ cmd.worker ≤ 8) →
      start w cmd sched = ⟨some (Except.error Error.Worker), 0, [], 0, false⟩)
    ∧ (1 ≤ cmd.worker → cmd.worker ≤ 8 → cmd.matchers = [] →
      start w cmd sched = ⟨some (Except.error Error.NoFile), 0, [], 0, false⟩) := by
  constructor
  · intro hbad
    unfold start
    rw [if_neg hbad]
  · intro h1 h2 hempty
    unfold start
    rw [if_pos ⟨h1, h2⟩, if_pos hempty]

/-- Claim C5 witness: worker count `0` fails with the worker error, and an
empty pattern list with worker count `1` fails with the no-file error,
both with nothing spawned, written or counted. -/
theorem c5_witness :
    start w5 ⟨[0], none, false, 0⟩ sched5
        = ⟨some (Except.error Error.Worker), 0, [], 0, false⟩
    ∧ start w5 ⟨[], none, false, 1⟩ sched5
        = ⟨some (Except.error Error.NoFile), 0, [], 0, false⟩ :=
  ⟨(c5_validation_before_any_work w5 ⟨[0], none, false, 0⟩ sched5).1 (by decide),
   (c5_validation_before_any_work w5 ⟨[], none, false, 1⟩ sched5).2
     (by decide) (by decide) rfl⟩

/-! ### Claim C3 -/

/-- Claim C3 counterexample: a non-empty pattern set (one matcher) that
matches zero files does not fail with the "no file" error — the run
completes successfully (`Ok(())`, `finish()` reached) having written
nothing.  `Error::NoFile` is only ever returned for an empty matcher
list (`src/main.rs` line 211 checks `matchers.is_empty()`, not the number
of matched files). -/
theorem c3_counterexample :
    (⟨[0], none, false, 1⟩ : Command).matchers ≠ []
    ∧ w3.glob 0 = Except.ok []
    ∧ start w3 ⟨[0], none, false, 1⟩ sched3
        = ⟨some (Except.ok ()), 2, [], 0, true⟩ :=
  ⟨by decide, rfl, rfl⟩

/-- Claim C3 (amended): only an *empty* pattern list fails with the
"no file" error (see `c5_validation_before_any_work`); a valid, non-empty
pattern set whose patterns all expand to zero regular files makes the run
complete successfully: the producer enqueues nothing, every worker ends
at once, no output file is created, the total stays `0`, and the run
returns `Ok(())`. -/
theorem c3_zero_matches_is_silent_success (w : World) (cmd : Command)
    (sched : Nat → List FileProvider)
    (hw : 1 ≤ cmd.worker ∧ cmd.worker ≤ 8) (hne : cmd.matchers ≠ [])
    (hglob : ∀ m ∈ cmd.matchers, ∃ es, w.glob m = Except.ok es ∧
      ∀ e ∈ es, ∃ q, e = Except.ok q ∧ w.isFile q = false)
    (hsched : ∀ i, i < cmd.worker →
      ∀ x ∈ sched i, x ∈ (producerRun w cmd.matchers).sent) :
    start w cmd sched = ⟨some (Except.ok ()), 1 + cmd.worker, [], 0, true⟩ := by
  have hpr : producerRun w cmd.matchers = ⟨[], 0, Except.ok ()⟩ :=
    prodMatchers_no_files w cmd.matchers 0 [] hglob
  have hs : ∀ i, i < cmd.worker → sched i = [] := by
    intro i hi
    rw [List.eq_nil_iff_forall_not_mem]
    intro x hx
    have hmem := hsched i hi x hx
    rw [hpr] at hmem
    exact List.not_mem_nil x hmem
  have houts : taskOuts w cmd sched
      = TaskOut.ok :: (List.range cmd.worker).map
          fun i => workerRun w cmd.output (sched i) := by
    unfold taskOuts
    rw [hpr]
  have hallok : ∀ o ∈ taskOuts w cmd sched, o = TaskOut.ok := by
    intro o ho
    rw [houts] at ho
    rcases List.mem_cons.mp ho with h1 | h1
    · exact h1
    · obtain ⟨i, hi, hoi⟩ := List.mem_map.mp h1
      rw [← hoi, hs i (List.mem_range.mp hi)]
      rfl
  have hwrites : ((List.range cmd.worker).map
      fun i => workerWrites w cmd.output (sched i)).flatten = [] := by
    refine flatten_map_nil _ _ ?_
    intro i hi
    rw [hs i (List.mem_range.mp hi)]
    rfl
  unfold start
  rw [if_pos hw, if_neg hne,
    coordJoin_all_ok (taskOuts w cmd sched) hallok, hwrites, hpr]

/-- Claim C3 witness: the amended statement applied at the concrete run of
the counterexample — one matcher, zero matches, one worker. -/
theorem c3_witness :
    start w3 ⟨[0], none, false, 1⟩ sched3
      = ⟨some (Except.ok ()), 1 + 1, [], 0, true⟩ :=
  c3_zero_matches_is_silent_success w3 ⟨[0], none, false, 1⟩ sched3
    (by decide) (by decide)
    (by
      intro m hm
      exact ⟨[], rfl, by intro e he; exact absurd he (List.not_mem_nil e)⟩)
    (by
      intro i hi x hx
      exact absurd hx (List.not_mem_nil x))

/-! ### Claim C8 -/

/-- Claim C8: the producer extends the progress bar's total length by
exactly the size of each descriptor it enqueues (and never otherwise), so
at every point of the discovery fold — in particular when discovery
completes without error — the total length equals the sum of the sizes of
the descriptors sent so far, starting from the initial length `0`. -/
theorem c8_total_length_is_sum_of_sizes (w : World) (ms : List Nat) :
    (producerRun w ms).total
      = ((producerRun w ms).sent.map FileProvider.size).sum :=
  prodMatchers_total_inv w ms 0 [] rfl

/-! ### Claim C9 -/

/-- Claim C9: the coordinator's join loop walks the task outcomes in spawn
order (producer first, then each worker — `taskOuts`); provided no task
panicked, it returns the first error value in that order, and when every
joined task succeeded it reaches `finish()` and returns success.
Moreover `Program::start`'s returned value and its finish flag are exactly
those of the join loop applied to `taskOuts`. -/
theorem c9_join_order_first_error :
    (∀ (outs : List TaskOut), TaskOut.panic ∉ outs →
      coordJoin outs =
        match firstJoinError outs with
        | some e => (some (Except.error e), false)
        | none => (some (Except.ok ()), true))
    ∧ ∀ (w : World) (cmd : Command) (sched : Nat → List FileProvider),
        (1 ≤ cmd.worker ∧ cmd.worker ≤ 8) → cmd.matchers ≠ [] →
        (start w cmd sched).result = (coordJoin (taskOuts w cmd sched)).1
        ∧ (start w cmd sched).finished = (coordJoin (taskOuts w cmd sched)).2 := by
  constructor
  · intro outs
    induction outs with
    | nil => intro _; rfl
    | cons o rest ih =>
      intro h
      have hrest : TaskOut.panic ∉ rest := fun hm => h (List.mem_cons_of_mem o hm)
      cases o with
      | ok => exact ih hrest
      | err e => rfl
      | panic => exact absurd (List.mem_cons_self _ _) h
  · intro w cmd sched hw hne
    unfold start
    rw [if_pos hw, if_neg hne]
    exact ⟨rfl, rfl⟩

/-- Claim C9 witness: on the outcome list `[ok, err Format, err Path]` the
join loop returns the first error in join order (`Format`) without
reaching `finish()`, and on a concrete valid run `start`'s result and
finish flag agree with the join of `taskOuts`. -/
theorem c9_witness :
    coordJoin [TaskOut.ok, TaskOut.err Error.Format, TaskOut.err Error.Path]
      = (some (Except.error Error.Format), false)
    ∧ (start w9 ⟨[0], none, false, 1⟩ sched9).result
      = (coordJoin (taskOuts w9 ⟨[0], none, false, 1⟩ sched9)).1 :=
  ⟨c9_join_order_first_error.1
      [TaskOut.ok, TaskOut.err Error.Format, TaskOut.err Error.Path] (by decide),
   (c9_join_order_first_error.2 w9 ⟨[0], none, false, 1⟩ sched9
      (by decide) (by decide)).1⟩

end Ncm
